import Mathlib

/-!
Shallow embedding of the coordination core in `src/src/models.rs`:
the authenticated event log (`EventLog`), the node-liveness registry
(`NodeRegistry`) and the delegating facade (`MasterServer`).

Modelling choices:
- `DateTime<Utc>` is modelled as `Int` (an ordered instant; only `>` on
  timestamps is used by the code).
- `serde_json::Value` payloads are opaque to the core and modelled as `String`.
- The `Arc<Mutex<...>>`-guarded interior state becomes explicit state passing:
  each mutating method takes the current contents and returns the new contents
  (each Rust method body runs under one lock span, so one Lean function
  application per call is the faithful sequential semantics).
- `HashMap<String, Node>` is modelled as a list of `Node`s with at most one
  entry per `node_id` (the well-formedness predicate `NodeRegistry.wf`), since
  `register_node` always keys an entry by the stored node's own `node_id`.
  `insert` replaces the entry when the key is present and adds one otherwise;
  iteration order of the map is unspecified, and the list order is one such
  order.
-/

/-- Mirrors `enum NodeStatus` in src/src/models.rs. -/
inductive NodeStatus where
  | Active
  | Inactive
deriving DecidableEq, Repr

/-- Mirrors `struct Event` in src/src/models.rs. -/
structure Event where
  event_id : String
  timestamp : Int
  origin_id : String
  event_type : String
  payload : String
  signature : String
deriving DecidableEq, Repr

/-- Mirrors `struct Node` in src/src/models.rs. -/
structure Node where
  node_id : String
  last_active : Int
  status : NodeStatus
deriving DecidableEq, Repr

/-- Mirrors `EventLog::verify_signature`: the placeholder implementation
ignores the event and returns `true`. -/
def EventLog.verify_signature (event : Event) : Bool :=
  true

/-- Mirrors the body of `EventLog::add_event` generic in the verification
predicate it consults (the source hardwires `verify_signature`, which
`EventLog.add_event` below plugs in): if verification fails, return the
`Invalid event signature` error and leave the `events` vector untouched;
otherwise push the event at the end and return `Ok`. The pair is
(call result, new contents of `events`). -/
def EventLog.add_event_with (verify : Event → Bool) (events : List Event)
    (event : Event) : Except String Unit × List Event :=
  if !(verify event) then
    (Except.error "Invalid event signature", events)
  else
    (Except.ok (), events ++ [event])

/-- Mirrors `EventLog::add_event` in src/src/models.rs, with the source's
own `verify_signature` as the verification step. -/
def EventLog.add_event (events : List Event) (event : Event) :
    Except String Unit × List Event :=
  EventLog.add_event_with EventLog.verify_signature events event

/-- Mirrors `EventLog::get_events_since`: filter the stored events, in their
stored order, keeping those with `e.timestamp > timestamp`. -/
def EventLog.get_events_since (events : List Event) (timestamp : Int) :
    List Event :=
  events.filter (fun e => decide (e.timestamp > timestamp))

/-- Sequencing of `add_event` calls: runs `add_event` once per event of
`toAdd`, threading the log, and collects the per-call results. -/
def EventLog.add_events (events : List Event) (toAdd : List Event) :
    List (Except String Unit) × List Event :=
  match toAdd with
  | [] => ([], events)
  | e :: rest =>
    let r := EventLog.add_event events e
    let rr := EventLog.add_events r.2 rest
    (r.1 :: rr.1, rr.2)

/-- Mirrors `NodeRegistry::register_node`:
`nodes.insert(node.node_id.clone(), node)` on the backing map — replace the
entry whose key is `node.node_id` when one exists, otherwise add the node. -/
def NodeRegistry.register_node (nodes : List Node) (node : Node) : List Node :=
  match nodes with
  | [] => [node]
  | n :: rest =>
    if n.node_id = node.node_id then
      node :: rest
    else
      n :: NodeRegistry.register_node rest node

/-- Mirrors `NodeRegistry::get_active_nodes`: filter the stored nodes keeping
those with `status == Active`. -/
def NodeRegistry.get_active_nodes (nodes : List Node) : List Node :=
  nodes.filter (fun n => decide (n.status = NodeStatus.Active))

/-- Mirrors `NodeRegistry::mark_node_inactive`:
`nodes.get_mut(node_id)` finds the entry stored under key `node_id` (unique in
a map) and sets its `status` to `Inactive`; when no entry exists nothing
happens. -/
def NodeRegistry.mark_node_inactive (nodes : List Node) (node_id : String) :
    List Node :=
  match nodes with
  | [] => []
  | n :: rest =>
    if n.node_id = node_id then
      { n with status := NodeStatus.Inactive } :: rest
    else
      n :: NodeRegistry.mark_node_inactive rest node_id

/-- Well-formedness of the registry model: at most one entry per `node_id`,
the invariant a `HashMap` keyed by `node_id` maintains by construction. -/
def NodeRegistry.wf (nodes : List Node) : Prop :=
  (nodes.map Node.node_id).Nodup

instance (nodes : List Node) : Decidable (NodeRegistry.wf nodes) := by
  unfold NodeRegistry.wf
  infer_instance

/-- Mirrors `struct MasterServer`: the facade owns the two stores. -/
structure MasterServer where
  event_log : List Event
  node_registry : List Node
deriving DecidableEq, Repr

/-- Mirrors `MasterServer::log_event`: `self.event_log.add_event(event)`. -/
def MasterServer.log_event (s : MasterServer) (event : Event) :
    Except String Unit × MasterServer :=
  let r := EventLog.add_event s.event_log event
  (r.1, { s with event_log := r.2 })

/-- Mirrors `MasterServer::get_events_since`:
`self.event_log.get_events_since(timestamp)`. -/
def MasterServer.get_events_since (s : MasterServer) (timestamp : Int) :
    List Event :=
  EventLog.get_events_since s.event_log timestamp

/-- Mirrors `MasterServer::register_node`:
`self.node_registry.register_node(node)`. -/
def MasterServer.register_node (s : MasterServer) (node : Node) : MasterServer :=
  { s with node_registry := NodeRegistry.register_node s.node_registry node }

/-- Mirrors `MasterServer::get_active_nodes`:
`self.node_registry.get_active_nodes()`. -/
def MasterServer.get_active_nodes (s : MasterServer) : List Node :=
  NodeRegistry.get_active_nodes s.node_registry

/-- State-passing lifting of calling `mark_node_inactive` on the registry held
inside a `MasterServer` (the facade exposes no such endpoint itself; the
operation acts on the registry component of the composite state). -/
def MasterServer.mark_node_inactive (s : MasterServer) (node_id : String) :
    MasterServer :=
  { s with node_registry := NodeRegistry.mark_node_inactive s.node_registry node_id }

/-! ## Basic lemmas -/

theorem add_event_eq (events : List Event) (event : Event) :
    EventLog.add_event events event = (Except.ok (), events ++ [event]) := by
  rfl

theorem add_events_eq (events : List Event) (toAdd : List Event) :
    EventLog.add_events events toAdd
      = (toAdd.map (fun _ => Except.ok ()), events ++ toAdd) := by
  induction toAdd generalizing events with
  | nil => simp [EventLog.add_events]
  | cons e rest ih =>
    simp [EventLog.add_events, add_event_eq, ih]

theorem register_node_map_id (nodes : List Node) (node : Node) :
    (NodeRegistry.register_node nodes node).map Node.node_id
      = if node.node_id ∈ nodes.map Node.node_id then nodes.map Node.node_id
        else nodes.map Node.node_id ++ [node.node_id] := by
  induction nodes with
  | nil => simp [NodeRegistry.register_node]
  | cons n rest ih =>
    by_cases h : n.node_id = node.node_id
    · simp [NodeRegistry.register_node, h]
    · by_cases hm : node.node_id ∈ rest.map Node.node_id
      · simp [NodeRegistry.register_node, h, ih, hm, Ne.symm h]
      · simp [NodeRegistry.register_node, h, ih, hm, Ne.symm h]

theorem register_node_wf (nodes : List Node) (node : Node)
    (h : NodeRegistry.wf nodes) :
    NodeRegistry.wf (NodeRegistry.register_node nodes node) := by
  unfold NodeRegistry.wf at *
  rw [register_node_map_id]
  by_cases hm : node.node_id ∈ nodes.map Node.node_id
  · simpa [hm] using h
  · simp [hm, List.nodup_append, h]

theorem mark_node_inactive_map_id (nodes : List Node) (node_id : String) :
    (NodeRegistry.mark_node_inactive nodes node_id).map Node.node_id
      = nodes.map Node.node_id := by
  induction nodes with
  | nil => rfl
  | cons n rest ih =>
    by_cases h : n.node_id = node_id <;>
      simp [NodeRegistry.mark_node_inactive, h, ih]

theorem mark_node_inactive_wf (nodes : List Node) (node_id : String)
    (h : NodeRegistry.wf nodes) :
    NodeRegistry.wf (NodeRegistry.mark_node_inactive nodes node_id) := by
  unfold NodeRegistry.wf at *
  rw [mark_node_inactive_map_id]
  exact h

theorem map_set_inactive_absent (nodes : List Node) (node_id : String)
    (h : ∀ n ∈ nodes, n.node_id ≠ node_id) :
    nodes.map (fun n => if n.node_id = node_id
        then { n with status := NodeStatus.Inactive } else n) = nodes := by
  induction nodes with
  | nil => rfl
  | cons n rest ih =>
    have hn : n.node_id ≠ node_id := h n (List.mem_cons_self n rest)
    have hrest : ∀ m ∈ rest, m.node_id ≠ node_id :=
      fun m hm => h m (List.mem_cons_of_mem n hm)
    simp [hn, ih hrest]

theorem mark_node_inactive_eq_map (nodes : List Node) (node_id : String)
    (hwf : NodeRegistry.wf nodes) :
    NodeRegistry.mark_node_inactive nodes node_id
      = nodes.map (fun n => if n.node_id = node_id
          then { n with status := NodeStatus.Inactive } else n) := by
  induction nodes with
  | nil => rfl
  | cons n rest ih =>
    rw [NodeRegistry.wf, List.map_cons, List.nodup_cons] at hwf
    by_cases h : n.node_id = node_id
    · have habs : ∀ m ∈ rest, m.node_id ≠ node_id := by
        intro m hm heq
        exact hwf.1 (h ▸ heq ▸ List.mem_map_of_mem Node.node_id hm)
      simp [NodeRegistry.mark_node_inactive, h,
        map_set_inactive_absent rest node_id habs]
    · simp [NodeRegistry.mark_node_inactive, h, ih hwf.2]

theorem filter_id_absent (nodes : List Node) (x : String)
    (h : ∀ n ∈ nodes, n.node_id ≠ x) :
    nodes.filter (fun m => decide (m.node_id = x)) = [] := by
  induction nodes with
  | nil => rfl
  | cons n rest ih =>
    have hn : n.node_id ≠ x := h n (List.mem_cons_self n rest)
    have hrest : ∀ m ∈ rest, m.node_id ≠ x :=
      fun m hm => h m (List.mem_cons_of_mem n hm)
    simp [List.filter_cons, hn, ih hrest]

theorem register_node_filter_id (nodes : List Node) (node : Node)
    (hwf : NodeRegistry.wf nodes) :
    (NodeRegistry.register_node nodes node).filter
        (fun m => decide (m.node_id = node.node_id)) = [node] := by
  induction nodes with
  | nil => simp [NodeRegistry.register_node]
  | cons n rest ih =>
    rw [NodeRegistry.wf, List.map_cons, List.nodup_cons] at hwf
    by_cases h : n.node_id = node.node_id
    · have habs : ∀ m ∈ rest, m.node_id ≠ node.node_id := by
        intro m hm heq
        exact hwf.1 (h ▸ heq ▸ List.mem_map_of_mem Node.node_id hm)
      simp [NodeRegistry.register_node, h, List.filter_cons,
        filter_id_absent rest node.node_id habs]
    · simp [NodeRegistry.register_node, h, List.filter_cons, ih hwf.2]

theorem register_register_same_id (nodes : List Node) (node1 node2 : Node)
    (hid : node1.node_id = node2.node_id) :
    NodeRegistry.register_node (NodeRegistry.register_node nodes node1) node2
      = NodeRegistry.register_node nodes node2 := by
  induction nodes with
  | nil => simp [NodeRegistry.register_node, hid]
  | cons n rest ih =>
    by_cases h : n.node_id = node1.node_id
    · simp [NodeRegistry.register_node, h, hid, h.trans hid]
    · have h2 : n.node_id ≠ node2.node_id := fun hx => h (hx.trans hid.symm)
      simp [NodeRegistry.register_node, h, h2, ih]

/-! ## Sample data for witnesses -/

/-- Concrete event used by witnesses. -/
def sampleEvent : Event :=
  { event_id := "e1", timestamp := 100, origin_id := "n1",
    event_type := "join", payload := "p", signature := "sig" }

/-- Second concrete event, sharing `event_id` with `sampleEvent`. -/
def sampleEvent2 : Event :=
  { event_id := "e1", timestamp := 200, origin_id := "n2",
    event_type := "leave", payload := "q", signature := "sig2" }

/-- Concrete node used by witnesses. -/
def sampleNode : Node :=
  { node_id := "n1", last_active := 10, status := NodeStatus.Active }

/-- Second concrete node, sharing `node_id` with `sampleNode` but differing in
every other field. -/
def sampleNode2 : Node :=
  { node_id := "n1", last_active := 5, status := NodeStatus.Inactive }

/-- Concrete server state used by witnesses. -/
def sampleServer : MasterServer :=
  { event_log := [sampleEvent], node_registry := [sampleNode] }

/-! ## Claims -/

/-- C1: starting from an empty log, every `add_event` call of an arbitrary
sequence succeeds, and `get_events_since t` then returns exactly the added
events whose timestamp is strictly greater than `t`, in insertion order
(`List.filter` of the insertion sequence, never re-sorted); an event with
timestamp equal to `t` is excluded, as the membership characterisation makes
explicit. -/
theorem C1_get_events_since_filters_insertion_order
    (toAdd : List Event) (t : Int) :
    (EventLog.add_events [] toAdd).1 = toAdd.map (fun _ => Except.ok ()) ∧
    EventLog.get_events_since (EventLog.add_events [] toAdd).2 t
      = toAdd.filter (fun e => decide (e.timestamp > t)) ∧
    ∀ e, e ∈ EventLog.get_events_since (EventLog.add_events [] toAdd).2 t
      ↔ e ∈ toAdd ∧ e.timestamp > t := by
  refine ⟨?_, ?_, ?_⟩
  · simp [add_events_eq]
  · simp [add_events_eq, EventLog.get_events_since]
  · intro e
    simp [add_events_eq, EventLog.get_events_since, List.mem_filter]

/-- C2: whenever the verification predicate consulted by the `add_event` body
rejects the event, the call returns the `Invalid event signature` error and
the log contents are exactly as they were before the call. -/
theorem C2_rejection_has_no_side_effect
    (verify : Event → Bool) (events : List Event) (event : Event)
    (h : verify event = false) :
    EventLog.add_event_with verify events event
      = (Except.error "Invalid event signature", events) := by
  simp [EventLog.add_event_with, h]

/-- Witness for C2 at a concrete rejecting verifier, event and log. -/
theorem C2_rejection_witness :
    (fun _ : Event => false) sampleEvent = false ∧
    EventLog.add_event_with (fun _ : Event => false) [sampleEvent] sampleEvent2
      = (Except.error "Invalid event signature", [sampleEvent]) :=
  ⟨rfl, C2_rejection_has_no_side_effect (fun _ : Event => false)
    [sampleEvent] sampleEvent2 rfl⟩

/-- C3: a node is in `get_active_nodes` exactly when it is stored in the
registry and its status is `Active`; in particular no returned node has status
`Inactive` (only membership, no ordering, is claimed). -/
theorem C3_get_active_nodes_membership (nodes : List Node) (n : Node) :
    n ∈ NodeRegistry.get_active_nodes nodes
      ↔ n ∈ nodes ∧ n.status = NodeStatus.Active := by
  simp [NodeRegistry.get_active_nodes, List.mem_filter]

/-- C4: the at-most-one-entry-per-`node_id` invariant is preserved by both
mutating operations, and `register_node` is an unconditional last-writer-wins
upsert: registering twice with the same `node_id` is the same as registering
only the second node, and the entries stored under that id afterwards are
exactly the second node, all of whose fields come from the second call. -/
theorem C4_register_node_last_writer_wins (nodes : List Node)
    (node1 node2 : Node) (hwf : NodeRegistry.wf nodes)
    (hid : node1.node_id = node2.node_id) :
    NodeRegistry.wf (NodeRegistry.register_node nodes node1) ∧
    NodeRegistry.wf (NodeRegistry.mark_node_inactive nodes node1.node_id) ∧
    NodeRegistry.register_node (NodeRegistry.register_node nodes node1) node2
      = NodeRegistry.register_node nodes node2 ∧
    (NodeRegistry.register_node (NodeRegistry.register_node nodes node1)
        node2).filter (fun m => decide (m.node_id = node2.node_id)) = [node2] := by
  refine ⟨register_node_wf nodes node1 hwf,
    mark_node_inactive_wf nodes node1.node_id hwf,
    register_register_same_id nodes node1 node2 hid, ?_⟩
  exact register_node_filter_id (NodeRegistry.register_node nodes node1) node2
    (register_node_wf nodes node1 hwf)

/-- Witness for C4 at a concrete registry and two nodes sharing an id. -/
theorem C4_register_node_witness :
    NodeRegistry.wf [sampleNode] ∧ sampleNode.node_id = sampleNode2.node_id ∧
    (NodeRegistry.register_node (NodeRegistry.register_node [sampleNode]
        sampleNode) sampleNode2).filter
      (fun m => decide (m.node_id = sampleNode2.node_id)) = [sampleNode2] :=
  ⟨by decide, rfl,
    (C4_register_node_last_writer_wins [sampleNode] sampleNode sampleNode2
      (by decide) rfl).2.2.2⟩

/-- C5: `mark_node_inactive` on an absent id is a silent no-op leaving the
registry unchanged (the operation is total, so no error can be raised, and no
entry is created); the set of stored ids is always preserved, and after the
call every stored node carrying the given id has status `Inactive` (so a
present id has its node's status set to `Inactive`). -/
theorem C5_mark_node_inactive_semantics (nodes : List Node) (node_id : String)
    (hwf : NodeRegistry.wf nodes) :
    ((∀ n ∈ nodes, n.node_id ≠ node_id) →
        NodeRegistry.mark_node_inactive nodes node_id = nodes) ∧
    (NodeRegistry.mark_node_inactive nodes node_id).map Node.node_id
      = nodes.map Node.node_id ∧
    ∀ m ∈ NodeRegistry.mark_node_inactive nodes node_id,
      m.node_id = node_id → m.status = NodeStatus.Inactive := by
  refine ⟨?_, mark_node_inactive_map_id nodes node_id, ?_⟩
  · intro habs
    rw [mark_node_inactive_eq_map nodes node_id hwf]
    exact map_set_inactive_absent nodes node_id habs
  · intro m hm hmid
    rw [mark_node_inactive_eq_map nodes node_id hwf] at hm
    obtain ⟨n, hn, rfl⟩ := List.mem_map.1 hm
    by_cases h : n.node_id = node_id
    · simp [h]
    · simp only [if_neg h] at hmid ⊢
      exact absurd hmid h

/-- Witness for C5 at a concrete one-node registry. -/
theorem C5_mark_node_inactive_witness :
    NodeRegistry.wf [sampleNode] ∧
    (NodeRegistry.mark_node_inactive [sampleNode] "n1").map Node.node_id
      = [sampleNode].map Node.node_id :=
  ⟨by decide, (C5_mark_node_inactive_semantics [sampleNode] "n1"
    (by decide)).2.1⟩

/-- C6: with the reference verifier, which accepts every event, `add_event`
succeeds on every log state and every event, appending the event at the end;
the result is never the error branch. -/
theorem C6_reference_verifier_always_appends (events : List Event)
    (event : Event) :
    EventLog.verify_signature event = true ∧
    EventLog.add_event events event = (Except.ok (), events ++ [event]) :=
  ⟨rfl, rfl⟩

/-- C7: each of the four facade operations of `MasterServer` is exactly one
call of the corresponding store method on the server's own store, with the
same arguments and an unchanged result, and touches no other store
(`log_event` leaves the registry alone, `register_node` leaves the log
alone, the two queries return the store call's result directly). -/
theorem C7_facade_pure_delegation (s : MasterServer) (event : Event)
    (t : Int) (node : Node) :
    (MasterServer.log_event s event).1
      = (EventLog.add_event s.event_log event).1 ∧
    (MasterServer.log_event s event).2.event_log
      = (EventLog.add_event s.event_log event).2 ∧
    (MasterServer.log_event s event).2.node_registry = s.node_registry ∧
    MasterServer.get_events_since s t
      = EventLog.get_events_since s.event_log t ∧
    (MasterServer.register_node s node).node_registry
      = NodeRegistry.register_node s.node_registry node ∧
    (MasterServer.register_node s node).event_log = s.event_log ∧
    MasterServer.get_active_nodes s
      = NodeRegistry.get_active_nodes s.node_registry :=
  ⟨rfl, rfl, rfl, rfl, rfl, rfl, rfl⟩

/-- C8: the log is append-only — for any verification predicate, the log
after `add_event` extends the old log (old entries keep their positions, the
log only grows at its end), and the registry operations never touch the
event log. -/
theorem C8_log_append_only (verify : Event → Bool) (events : List Event)
    (event : Event) (s : MasterServer) (node : Node) (node_id : String) :
    (EventLog.add_event_with verify events event).2.take events.length
      = events ∧
    (∃ tail, (EventLog.add_event_with verify events event).2
      = events ++ tail) ∧
    (MasterServer.register_node s node).event_log = s.event_log ∧
    (MasterServer.mark_node_inactive s node_id).event_log = s.event_log := by
  refine ⟨?_, ?_, rfl, rfl⟩
  · by_cases h : verify event <;>
      simp [EventLog.add_event_with, h, List.take_left]
  · by_cases h : verify event
    · exact ⟨[event], by simp [EventLog.add_event_with, h]⟩
    · exact ⟨[], by simp [EventLog.add_event_with, h]⟩

/-- C9: no uniqueness constraint on `event_id` exists — two `add_event` calls
with events sharing an `event_id` both succeed, both events are retained as
distinct entries, and the log length grows by two. -/
theorem C9_duplicate_event_ids_accepted (events : List Event) (e1 e2 : Event)
    (hid : e1.event_id = e2.event_id) :
    (EventLog.add_event events e1).1 = Except.ok () ∧
    (EventLog.add_event (EventLog.add_event events e1).2 e2).1
      = Except.ok () ∧
    (EventLog.add_event (EventLog.add_event events e1).2 e2).2
      = events ++ [e1, e2] ∧
    (EventLog.add_event (EventLog.add_event events e1).2 e2).2.length
      = events.length + 2 := by
  simp [add_event_eq]

/-- Witness for C9 at two concrete events sharing `event_id := "e1"`. -/
theorem C9_duplicate_event_ids_witness :
    sampleEvent.event_id = sampleEvent2.event_id ∧
    (EventLog.add_event (EventLog.add_event [] sampleEvent).2
        sampleEvent2).2.length = 2 :=
  ⟨rfl, (C9_duplicate_event_ids_accepted [] sampleEvent sampleEvent2 rfl).2.2.2⟩

/-- C10: frame property of `mark_node_inactive` on a present id — the event
log component of the server state is untouched, the registry keeps its
length, and the new registry is the pointwise update that flips only the
`status` field of the entry carrying the id (its `node_id` and `last_active`
and every other entry are unchanged). -/
theorem C10_mark_node_inactive_frame (s : MasterServer) (node_id : String)
    (hwf : NodeRegistry.wf s.node_registry)
    (hpresent : ∃ n ∈ s.node_registry, n.node_id = node_id) :
    (MasterServer.mark_node_inactive s node_id).event_log = s.event_log ∧
    (MasterServer.mark_node_inactive s node_id).node_registry
      = s.node_registry.map (fun n => if n.node_id = node_id
          then { n with status := NodeStatus.Inactive } else n) ∧
    (MasterServer.mark_node_inactive s node_id).node_registry.length
      = s.node_registry.length := by
  refine ⟨rfl, mark_node_inactive_eq_map s.node_registry node_id hwf, ?_⟩
  show (NodeRegistry.mark_node_inactive s.node_registry node_id).length = _
  rw [mark_node_inactive_eq_map s.node_registry node_id hwf]
  simp

/-- Witness for C10 at a concrete server whose registry holds `"n1"`. -/
theorem C10_mark_node_inactive_witness :
    NodeRegistry.wf sampleServer.node_registry ∧
    (∃ n ∈ sampleServer.node_registry, n.node_id = "n1") ∧
    (MasterServer.mark_node_inactive sampleServer "n1").event_log
      = sampleServer.event_log :=
  ⟨by decide, ⟨sampleNode, by simp [sampleServer], rfl⟩,
    (C10_mark_node_inactive_frame sampleServer "n1" (by decide)
      ⟨sampleNode, by simp [sampleServer], rfl⟩).1⟩
